import Mathlib

/-!
Verification development for the DigiCamCommissioning histogram-and-fit engine
(`utils/histogram.py`, `spectra_fit/fit_low_light.py`).

The Python code is shallowly embedded:
  * numpy float values that only ever hold exact quantities (counts, bin
    positions, fit parameters) are modelled as rationals `ℚ`;
  * the single irrational operation, `np.sqrt` in `_compute_errors`, is
    modelled over `ℝ` with `Real.sqrt`;
  * a float `NaN` slot in a fit-result array is modelled as `none` in
    `Option ℚ`;
  * code that can raise a Python exception is modelled in `Except String`,
    with the propagation structure (which calls sit inside a `try`) copied
    from the source;
  * `scipy.optimize.least_squares` together with the covariance computation
    `inv(out.jac.T @ out.jac)` is external library code; it is abstracted as
    an explicit optimizer argument returning either an exception
    (`Except.error`, modelling any exception raised while optimizing,
    including one raised by the objective) or an `OptOut` record holding the
    optimum, the residuals there, and (optionally) the covariance diagonal
    (`none` modelling `numpy.linalg.LinAlgError`).

Slot shapes are modelled one-dimensional (a list of slots), matching the
per-pixel use of the engine; `data` is the list of per-slot bin-content rows.
-/

/-- One entry of a fit-result array: `[value, standard_error]`, each possibly
`NaN` (`none`). -/
abbrev Row : Type := Option ℚ × Option ℚ

/-- A `NaN`-filled result entry (`np.ones(...) * np.nan`). -/
def nanRow : Row := (none, none)

/-- A zero-filled result entry (`np.zeros(...)`), used by the
dimension-reconciliation padding in `Histogram.fit`. -/
def zeroRow : Row := (some 0, some 0)

/-- A per-slot fit configuration (`config[indices]` in the source): a small
2-d float array, indexed as `config[k][0]` (value) / `config[k][1]` (error). -/
abbrev Cfg : Type := List (List ℚ)

/-- `np.arange(start, stop, step)`.  Produces
`start, start+step, ...` with length `max 0 ⌈(stop-start)/step⌉`; a zero step
raises `ZeroDivisionError`, as numpy does. -/
def np_arange (start stop step : ℚ) : Except String (List ℚ) :=
  if step = 0 then .error "ZeroDivisionError: division by zero"
  else .ok ((List.range (Int.toNat ⌈(stop - start) / step⌉)).map
    (fun i => start + (i : ℚ) * step))

/-- `np.average(x, weights=w)`: the weighted mean `Σ xᵢwᵢ / Σ wᵢ`; raises
`ZeroDivisionError` when the weights sum to zero, as numpy does. -/
def np_average (x w : List ℚ) : Except String ℚ :=
  if w.sum = 0 then .error "ZeroDivisionError: Weights sum to zero"
  else .ok ((List.zipWith (· * ·) x w).sum / w.sum)

/-- Membership of a sample in bin `i` of `np.histogram`'s bin system: bin `i`
is `[edges[i], edges[i+1])`, except the last bin which is closed on the right
(`numpy`'s documented behaviour). -/
def binContains (edges : List ℚ) (i : ℕ) (v : ℚ) : Bool :=
  decide (edges.getD i 0 ≤ v) &&
    (if i + 2 = edges.length then decide (v ≤ edges.getD (i + 1) 0)
     else decide (v < edges.getD (i + 1) 0))

/-- `np.histogram(samples, bins=edges)[0]`: per-bin counts over the given
edges; samples outside `[edges[0], edges[-1]]` are counted in no bin. -/
def np_histogram (edges : List ℚ) (samples : List ℚ) : List ℕ :=
  (List.range (edges.length - 1)).map (fun i => samples.countP (binContains edges i))

/-- Python slicing `l[a:b:step]` for non-negative indices and positive step
(the only form the engine produces). -/
def pySlice {α : Type} (l : List α) (a b step : ℕ) : List α :=
  (List.range l.length).filterMap
    (fun i => if a ≤ i ∧ i < b ∧ (i - a) % step = 0 then l[i]? else none)

/-- The histogram store (`Histogram` in `utils/histogram.py`), restricted to a
one-dimensional slot shape.  `data.length` is the number of slots; each row of
`data` holds the per-bin contents of one slot.  `fit_function` holds the fit
function's identifier (`__name__` is all that is ever persisted). -/
structure Histogram : Type where
  bin_width : ℚ
  bin_edges : List ℚ
  bin_centers : List ℚ
  data : List (List ℚ)
  underflow : List ℚ
  overflow : List ℚ
  errors : List (List ℝ)
  fit_result : Option (List (List Row))
  fit_result_label : Option (List String)
  fit_chi2_ndof : Option (List Row)
  fit_function : Option String
  fit_axis : Option (List ℚ)
  xlabel : String
  ylabel : String
  label : String

/-- The contents of the `.npz` archive written by `Histogram.save`: one named
array per field, scalars wrapped as 1-element arrays exactly as the source
does. -/
structure HistArchive : Type where
  data : List (List ℚ)
  bin_centers : List ℚ
  bin_edges : List ℚ
  bin_width : List ℚ
  errors : List (List ℝ)
  underflow : List ℚ
  overflow : List ℚ
  fit_result : Option (List (List Row))
  fit_function_name : List String
  fit_chi2_ndof : Option (List Row)
  fit_axis : Option (List ℚ)
  xlabel : List String
  ylabel : List String
  label : List String
  fit_result_label : Option (List String)

/-- `Histogram.__init__` on the `(bin_center_min, bin_center_max, bin_width)`
path with no pre-existing data: the bin edges are
`np.arange(min - w/2, max + w/2 + 1, w)`, the centers
`np.arange(min, max + 1, w)`, and all arrays start at zero.  Any exception
from `np.arange` propagates (the constructor performs no width validation). -/
def Histogram.init (data_shape : ℕ) (bin_center_min bin_center_max bin_width : ℚ) :
    Except String Histogram := do
  let edges ← np_arange (bin_center_min - bin_width / 2)
    (bin_center_max + bin_width / 2 + 1) bin_width
  let centers ← np_arange bin_center_min (bin_center_max + 1) bin_width
  .ok { bin_width := bin_width
        bin_edges := edges
        bin_centers := centers
        data := List.replicate data_shape (List.replicate centers.length 0)
        underflow := List.replicate data_shape 0
        overflow := List.replicate data_shape 0
        errors := List.replicate data_shape (List.replicate centers.length (0 : ℝ))
        fit_result := none
        fit_result_label := none
        fit_chi2_ndof := none
        fit_function := none
        fit_axis := none
        xlabel := "x"
        ylabel := "y"
        label := "hist" }

/-- `Histogram.save`: the archive written on a successful save (the
missing-directory check is filesystem behaviour outside this model).  A `None`
fit function is stored as the `'NoneType'` sentinel string. -/
def Histogram.save (h : Histogram) : HistArchive :=
  let fit_func := match h.fit_function with
    | none => "NoneType"
    | some n => n
  { data := h.data
    bin_centers := h.bin_centers
    bin_edges := h.bin_edges
    bin_width := [h.bin_width]
    errors := h.errors
    underflow := h.underflow
    overflow := h.overflow
    fit_result := h.fit_result
    fit_function_name := [fit_func]
    fit_chi2_ndof := h.fit_chi2_ndof
    fit_axis := h.fit_axis
    xlabel := [h.xlabel]
    ylabel := [h.ylabel]
    label := [h.label]
    fit_result_label := h.fit_result_label }

/-- `Histogram.load`: reads every named array back (each `np.copy`ed, so the
loaded store shares no storage with the archive), mapping the `'NoneType'`
sentinel back to an absent fit function. -/
def Histogram.load (a : HistArchive) : Histogram :=
  { bin_width := a.bin_width.getD 0 0
    bin_edges := a.bin_edges
    bin_centers := a.bin_centers
    data := a.data
    underflow := a.underflow
    overflow := a.overflow
    errors := a.errors
    fit_result := a.fit_result
    fit_result_label := a.fit_result_label
    fit_chi2_ndof := a.fit_chi2_ndof
    fit_function :=
      if a.fit_function_name.getD 0 "" = "NoneType" then none
      else some (a.fit_function_name.getD 0 "")
    fit_axis := a.fit_axis
    xlabel := a.xlabel.getD 0 ""
    ylabel := a.ylabel.getD 0 ""
    label := a.label.getD 0 "" }

/-- `Histogram._compute_errors`: `errors = np.sqrt(data)` with every zero
entry forced to `1`.  (Real-valued, hence noncomputable, because of the square
root; every other definition in this file is executable.) -/
noncomputable def computeErrors (data : List (List ℚ)) : List (List ℝ) :=
  data.map (fun row => row.map (fun (q : ℚ) =>
    let e := Real.sqrt ((q : ℚ) : ℝ)
    if e = 0 then 1 else e))

/-- Indexed map used to embed numpy's vectorised index assignment. -/
def mapIdxFrom {α β : Type} (f : ℕ → α → β) : ℕ → List α → List β
  | _, [] => []
  | k, a :: t => f k a :: mapIdxFrom f (k + 1) t

/-- The raw (unclamped) bin index `(value - bin_edges[0]) // bin_width` used
by `Histogram.fill` (and exposed by `find_bin`). -/
def Histogram.find_bin (h : Histogram) (x : ℚ) : ℤ :=
  ⌊(x - h.bin_edges.getD 0 0) / h.bin_width⌋

/-- The two sequential clamp assignments of `Histogram.fill`:
indices above `N-1` are set to `N-1`, then indices below `0` are set to `0`. -/
def clampFillIndex (n : ℤ) (k : ℤ) : ℤ :=
  let k1 := if k > n - 1 then n - 1 else k
  if k1 < 0 then 0 else k1

/-- `Histogram.fill(value)` with `indices=None` and one sample per slot (the
shape contract under which the source's index arithmetic is well-formed:
`value.shape == data[..., 0].shape`).  Each slot's sample is bucketed by
floor-division against the first edge and clamped into the data's last axis,
and the matching bin is incremented by one.  No underflow/overflow counting
and no error recomputation happen here. -/
def Histogram.fill (h : Histogram) (value : List ℚ) : Histogram :=
  let n : ℤ := ((h.data.headD []).length : ℤ)
  { h with data := mapIdxFrom (fun i row =>
      if i < value.length then
        mapIdxFrom (fun b c =>
          if (b : ℤ) = clampFillIndex n (h.find_bin (value.getD i 0)) then c + 1
          else c) 0 row
      else row) 0 h.data }

/-- `Histogram.fill_with_batch(batch)` with `indices=None` on the non-object
path: per slot, add `np.histogram(batch[i], bins=bin_edges)`, add
`sum(~(batch[i] > bin_edges[0]))` to `underflow`, add
`sum(~(batch[i] < bin_edges[1]))` to `overflow` (note: the *second* edge),
then recompute the Poisson errors of the whole store. -/
noncomputable def Histogram.fill_with_batch (h : Histogram) (batch : List (List ℚ)) : Histogram :=
  let e0 := h.bin_edges.getD 0 0
  let e1 := h.bin_edges.getD 1 0
  let tmp_hist := batch.map (fun row => (np_histogram h.bin_edges row).map (fun (c : ℕ) => (c : ℚ)))
  let tmp_underflow := batch.map (fun row => ((row.countP (fun v => !decide (e0 < v))) : ℚ))
  let tmp_overflow := batch.map (fun row => ((row.countP (fun v => !decide (v < e1))) : ℚ))
  let data := List.zipWith (List.zipWith (· + ·)) h.data tmp_hist
  { h with
    data := data
    underflow := List.zipWith (· + ·) h.underflow tmp_underflow
    overflow := List.zipWith (· + ·) h.overflow tmp_overflow
    errors := computeErrors data }

/-- `np.where(y != 0)[0]`: the indices of the nonzero entries of `y`. -/
def whereNeZero (y : List ℚ) : List ℕ :=
  (List.range y.length).filter (fun i => decide (y.getD i 0 ≠ 0))

/-- The `config is not None` (warm-start) arm of `p0_func` in
`spectra_fit/fit_low_light.py`: the prior fit supplies
`config = [[baseline,·],[gain,·],[sigma_e,·],[sigma_1,·]]`; the baseline
estimate `x[first nonzero] + 4*4` is used only when more than two bins are
nonzero and is replaced by `config[0,0] - config[1,0]/2` when it exceeds
`config[0,0]`; `np.average` raises when `y` sums to zero. -/
def FitLowLight.p0_func_config (y x : List ℚ) (config : Cfg) :
    Except String (List ℚ) := do
  let c00 := (config.getD 0 []).getD 0 0
  let c10 := (config.getD 1 []).getD 0 0
  let c20 := (config.getD 2 []).getD 0 0
  let c30 := (config.getD 3 []).getD 0 0
  let baseline : ℚ :=
    if 2 < (whereNeZero y).length then
      let b := x.getD ((whereNeZero y).headD 0) 0 + 4 * 4
      if b > c00 then c00 - c10 / 2 else b
    else 0
  let gain := c10
  let sigma_e := c20
  let sigma_1 := c30
  let amplitude := y.sum
  let avg ← np_average x y
  let mean := (avg - baseline) / gain
  let mu := max 0 mean
  let mu_xt : ℚ := 0
  let offset : ℚ := 0
  .ok [mu, mu_xt, gain, baseline, sigma_e, sigma_1, amplitude, offset]

/-- `slice_func` of `spectra_fit/fit_low_light.py`: the window from the first
to the last nonzero bin, step 1; on an all-zero histogram the source's
`np.where(y != 0)[0][0]` raises `IndexError`. -/
def FitLowLight.slice_func (y : List ℚ) (_x : List ℚ) : Except String (List ℕ) :=
  match whereNeZero y with
  | [] => .error "IndexError: index 0 is out of bounds for axis 0 with size 0"
  | l => .ok [l.headD 0, l.getLastD 0, 1]

/-- A float bound entry: finite, `np.inf`, or `-np.inf`. -/
inductive PyF : Type
  | fin (q : ℚ)
  | pinf
  | ninf
deriving DecidableEq

instance : Inhabited PyF := ⟨PyF.fin 0⟩

/-- `bounds_func` of `spectra_fit/fit_low_light.py`: loose cold-start bounds
without a config, warm-start bounds tightened around
`config = [baseline, gain, sigma_e, sigma_1]` rows otherwise. -/
def FitLowLight.bounds_func (_y _x : List ℚ) (config : Option Cfg) :
    List PyF × List PyF :=
  match config with
  | none =>
    ([.fin 0, .fin 0, .fin 0, .fin 0, .fin 0, .fin 0, .fin 0, .fin 0],
     [.fin 200, .fin 1, .pinf, .pinf, .pinf, .pinf, .pinf, .pinf])
  | some c =>
    let baseline := c.getD 0 []
    let gain := c.getD 1 []
    let sigma_e := c.getD 2 []
    let sigma_1 := c.getD 3 []
    let b0 := baseline.getD 0 0
    let g0 := gain.getD 0 0
    let g1 := gain.getD 1 0
    let se0 := sigma_e.getD 0 0
    let s10 := sigma_1.getD 0 0
    ([.fin 0, .fin 0, .fin (g0 - 5 * g1), .fin (b0 - 2 * g0), .fin (se0 / 2),
      .fin (s10 / 2), .fin 0, .ninf],
     [.pinf, .fin 1, .fin (g0 + 5 * g1), .fin (b0 + 3), .fin (se0 * 2),
      .fin (s10 * 2), .pinf, .pinf])

/-- The parameter-reduction loop of `_axis_fit` (used for both `reduced_p0`
and `reduced_bounds`): walk the indices of `p0` (the first list argument),
skip those in `fixed_param[0]`, and pick the element of `l` at each kept
index. -/
def pickFrom {β : Type} (d : β) (l : List β) (fxI : List ℕ) :
    List ℚ → ℕ → List β
  | [], _ => []
  | _ :: t, k =>
    if fxI.contains k then pickFrom d l fxI t (k + 1)
    else l.getD k d :: pickFrom d l fxI t (k + 1)

/-- The parameter-vector reconstruction inside `reduced_func` of `_axis_fit`:
walk the indices of `p0`; at a free index consume the next optimizer
parameter, at a fixed index substitute every matching fixed value. -/
def buildPNew (fxI : List ℕ) (fxV : List ℚ) : List ℚ → ℕ → List ℚ → List ℚ
  | [], _, _ => []
  | _ :: t, k, p =>
    if fxI.contains k then
      ((List.zip fxI fxV).filterMap (fun z => if z.1 = k then some z.2 else none))
        ++ buildPNew fxI fxV t (k + 1) p
    else p.headD 0 :: buildPNew fxI fxV t (k + 1) p.tail

/-- The restore loop at the end of `_axis_fit`: for each `(index, value)`
fixed parameter, `np.insert(fit_result, index, [value, 0.], axis=0)`. -/
def restoreFixed (rows : List Row) (fxI : List ℕ) (fxV : List ℚ) : List Row :=
  (List.zip fxI fxV).foldl (fun acc z => acc.insertIdx z.1 (some z.2, some 0)) rows

/-- The observable outcome of a successful `scipy.optimize.least_squares`
call: the optimum `out.x`, the residuals `out.fun` there, and the result of
`np.sqrt(np.diag(inv(out.jac.T @ out.jac)))` (`none` models the singular case,
`numpy.linalg.LinAlgError`). -/
structure OptOut : Type where
  x : List ℚ
  fvals : List ℚ
  covDiag : Option (List ℚ)
deriving DecidableEq

/-- An abstract bounded nonlinear least-squares optimizer: consumes the
(reduced) objective, initial guess, bounds, and the sliced bin centers, bin
contents and errors; an `Except.error` models any exception raised during
optimization, including one raised by the objective function. -/
abbrev Opt (β : Type) : Type :=
  (List ℚ → ℚ → ℚ) → List ℚ → List β × List β → List ℚ → List ℚ → List ℝ →
    Except String OptOut

/-- `Histogram._axis_fit` for one slot.  `y`/`errs` are this slot's data and
error rows, `centers` the shared bin centers.  The NaN guard of the source
(`np.any(np.isnan(...))` on `p0` and the bounds) cannot fire in the exact
rational model, and the source's `self.data[idx][...].shape == 0` compares a
tuple with an integer and is always false, so the degenerate-input guard
reduces to `slice_list == [0, 0, 1]`.  Exceptions during optimization are
caught and produce a NaN-filled result (their caught-and-logged branch); a
singular covariance keeps the values and NaNs only the uncertainties. -/
def axisFit {β : Type} [Inhabited β] (opt : Opt β) (y centers : List ℚ)
    (errs : List ℝ) (func : List ℚ → ℚ → ℚ) (p0 : List ℚ) (slice_list : List ℕ)
    (bounds : List β × List β) (fixed_param : Option (List ℕ × List ℚ)) :
    List Row × Option ℚ × ℚ :=
  let redP0 := match fixed_param with
    | none => p0
    | some fx => pickFrom 0 p0 fx.1 p0 0
  let redBounds := match fixed_param with
    | none => bounds
    | some fx => (pickFrom default bounds.1 fx.1 p0 0, pickFrom default bounds.2 fx.1 p0 0)
  let redFunc := match fixed_param with
    | none => func
    | some fx => fun p x => func (buildPNew fx.1 fx.2 p0 0 p) x
  let out :=
    if slice_list = [0, 0, 1] then
      let ndof := ((slice_list.getD 1 0 : ℚ) - (slice_list.getD 0 0 : ℚ))
          / (slice_list.getD 2 0 : ℚ) - redP0.length
      (List.replicate redP0.length nanRow, (none : Option ℚ), ndof)
    else
      let sl := if slice_list = [] then [0, centers.length - 1, 1] else slice_list
      let s0 := sl.getD 0 0
      let s1 := sl.getD 1 0
      let s2 := sl.getD 2 0
      let ndof := ((s1 : ℚ) - (s0 : ℚ)) / (s2 : ℚ) - redP0.length
      match opt redFunc redP0 redBounds (pySlice centers s0 s1 s2)
          (pySlice y s0 s1 s2) (pySlice errs s0 s1 s2) with
      | .error _ => (List.replicate redP0.length nanRow, none, ndof)
      | .ok o =>
        let chi2 := some ((o.fvals.map (fun r => r * r)).sum)
        match o.covDiag with
        | some c => ((o.x.zip c).map (fun z => (some z.1, some z.2)), chi2, ndof)
        | none => (o.x.map (fun v => ((some v : Option ℚ), (none : Option ℚ))), chi2, ndof)
  match fixed_param with
  | none => out
  | some fx => (restoreFixed out.1 fx.1 fx.2, out.2)

/-- The in-flight mutable fit state of a store: `(fit_result, fit_chi2_ndof)`,
each `none` until first allocated (`type(...).__name__ != 'ndarray'`). -/
abbrev FitState : Type := Option (List (List Row)) × Option (List Row)

/-- One iteration of the slot loop of `Histogram.fit` at slot `i`: allocate
the shared NaN-filled result arrays on first use (sized by a `p0_func` call),
evaluate `p0_func`, `slice_func`, `bound_func` for this slot — none of these
calls sits inside a `try`, so their exceptions propagate — run `_axis_fit`,
reconcile the parameter-axis widths by zero-padding, and write the slot's
results. -/
def fitStep {β : Type} [Inhabited β] (h : Histogram)
    (func : List ℚ → ℚ → Option Cfg → ℚ)
    (p0F : List ℚ → List ℚ → Option Cfg → Except String (List ℚ))
    (sliceF : List ℚ → List ℚ → Option Cfg → Except String (List ℕ))
    (boundF : List ℚ → List ℚ → Option Cfg → Except String (List β × List β))
    (config : Option (List Cfg)) (fixed_param : List (ℕ × ℚ)) (opt : Opt β)
    (st : FitState) (i : ℕ) : Except String FitState :=
  let y := h.data.getD i []
  let cfg_i : Option Cfg := config.map (fun cl => cl.getD i [])
  let frE : Except String (List (List Row)) :=
    match st.1 with
    | some fr => .ok fr
    | none =>
      match p0F y h.bin_centers cfg_i with
      | .error e => .error e
      | .ok p0 =>
        .ok (List.replicate h.data.length (List.replicate p0.length nanRow))
  match frE with
  | .error e => .error e
  | .ok fr =>
    let fc := match st.2 with
      | some fc => fc
      | none => List.replicate h.data.length nanRow
    let lfp : Option (List ℕ × List ℚ) :=
      if fixed_param.isEmpty then none
      else some (fixed_param.map Prod.fst, fixed_param.map Prod.snd)
    match p0F y h.bin_centers cfg_i with
    | .error e => .error e
    | .ok p0 =>
      match sliceF y h.bin_centers cfg_i with
      | .error e => .error e
      | .ok sl =>
        match boundF y h.bin_centers cfg_i with
        | .error e => .error e
        | .ok bd =>
          let r := axisFit opt y h.bin_centers (h.errors.getD i [])
            (fun p x => func p x cfg_i) p0 sl bd lfp
          let fit_res := r.1
          let chi2 := r.2.1
          let ndof := r.2.2
          let fr :=
            if (fr.getD i []).length < fit_res.length then
              fr.map (fun row =>
                row ++ List.replicate (fit_res.length - (fr.getD i []).length) zeroRow)
            else fr
          let fit_res :=
            if fit_res.length < (fr.getD i []).length then
              fit_res ++ List.replicate ((fr.getD i []).length - fit_res.length) zeroRow
            else fit_res
          .ok (some (fr.set i fit_res), some (fc.set i (chi2, some ndof)))

/-- The slot loop of `Histogram.fit` over the remaining slot indices; an
exception from any step aborts the whole loop (there is no per-slot `try`). -/
def fitLoop {β : Type} [Inhabited β] (h : Histogram)
    (func : List ℚ → ℚ → Option Cfg → ℚ)
    (p0F : List ℚ → List ℚ → Option Cfg → Except String (List ℚ))
    (sliceF : List ℚ → List ℚ → Option Cfg → Except String (List ℕ))
    (boundF : List ℚ → List ℚ → Option Cfg → Except String (List β × List β))
    (config : Option (List Cfg)) (fixed_param : List (ℕ × ℚ)) (opt : Opt β) :
    List ℕ → FitState → Except String FitState
  | [], st => .ok st
  | i :: rest, st =>
    match fitStep h func p0F sliceF boundF config fixed_param opt st i with
    | .error e => .error e
    | .ok st' => fitLoop h func p0F sliceF boundF config fixed_param opt rest st'

/-- The observable result of a completed `Histogram.fit` call. -/
structure FitOut : Type where
  fit_result_label : List String
  fit_result : Option (List (List Row))
  fit_chi2_ndof : Option (List Row)
deriving DecidableEq

/-- `Histogram.fit`: store the labels by calling `labels_func()` — which, with
the default `labels_func=None`, raises `TypeError` before any slot is
processed — then fit every slot in order, starting from the store's current
`fit_result`/`fit_chi2_ndof` arrays. -/
def Histogram.fit {β : Type} [Inhabited β] (h : Histogram)
    (func : List ℚ → ℚ → Option Cfg → ℚ)
    (p0F : List ℚ → List ℚ → Option Cfg → Except String (List ℚ))
    (sliceF : List ℚ → List ℚ → Option Cfg → Except String (List ℕ))
    (boundF : List ℚ → List ℚ → Option Cfg → Except String (List β × List β))
    (labelsF : Option (Unit → List String)) (config : Option (List Cfg))
    (fixed_param : List (ℕ × ℚ)) (opt : Opt β) : Except String FitOut :=
  match labelsF with
  | none => .error "TypeError: NoneType object is not callable"
  | some lf =>
    match fitLoop h func p0F sliceF boundF config fixed_param opt
        (List.range h.data.length) (h.fit_result, h.fit_chi2_ndof) with
    | .error e => .error e
    | .ok st => .ok { fit_result_label := lf (), fit_result := st.1, fit_chi2_ndof := st.2 }

/-! ### Concrete stores and strategy instantiations used by the claims. -/

/-- A one-slot store with three bins (centers `0,1,2`) whose histogram data is
entirely zero. -/
def hZero : Histogram :=
  { bin_width := 1
    bin_edges := [-(1 : ℚ) / 2, 1 / 2, 3 / 2, 5 / 2]
    bin_centers := [0, 1, 2]
    data := [[0, 0, 0]]
    underflow := [0]
    overflow := [0]
    errors := [[1, 1, 1]]
    fit_result := none
    fit_result_label := none
    fit_chi2_ndof := none
    fit_function := none
    fit_axis := none
    xlabel := "x"
    ylabel := "y"
    label := "hist" }

/-- A prior fit result handed to the warm-start strategy:
`[[baseline],[gain],[sigma_e],[sigma_1]] = [[20],[2],[1],[1]]` (second column:
uncertainties). -/
def cfgPrior : Cfg := [[20, 0], [2, 0], [1, 0], [1, 0]]

/-- The low-light `p0_func` as handed to `Histogram.fit` when a `config` array
is supplied: every slot then takes the warm-start arm (the cold-start arm,
which depends on the external `peakutils` library, is unreachable in the runs
modelled here). -/
def lowlightP0F (y x : List ℚ) (config : Option Cfg) : Except String (List ℚ) :=
  match config with
  | some c => FitLowLight.p0_func_config y x c
  | none => .error "cold-start arm not modelled"

/-- The low-light `slice_func` (it ignores the config). -/
def lowlightSliceF (y x : List ℚ) (_config : Option Cfg) : Except String (List ℕ) :=
  FitLowLight.slice_func y x

/-- The low-light `bounds_func` (it never raises). -/
def lowlightBoundF (y x : List ℚ) (config : Option Cfg) :
    Except String (List PyF × List PyF) :=
  .ok (FitLowLight.bounds_func y x config)

/-- A placeholder objective (never evaluated in the runs below: the optimizer
is abstract and the failing runs never reach it). -/
def trivFunc (_p : List ℚ) (_x : ℚ) (_c : Option Cfg) : ℚ := 0

/-- An optimizer stub that always succeeds with an empty output. -/
def idleOpt : Opt PyF := fun _ _ _ _ _ _ => .ok ⟨[], [], none⟩

/-- A two-slot store with a single bin (center `0`), slot data `[1]` and
`[2]`. -/
def hTwo : Histogram :=
  { bin_width := 1
    bin_edges := [-(1 : ℚ) / 2, 1 / 2]
    bin_centers := [0]
    data := [[1], [2]]
    underflow := [0, 0]
    overflow := [0, 0]
    errors := [[1], [1]]
    fit_result := none
    fit_result_label := none
    fit_chi2_ndof := none
    fit_function := none
    fit_axis := none
    xlabel := "x"
    ylabel := "y"
    label := "hist" }

/-- A one-parameter initial guess. -/
def p0One (_y _x : List ℚ) (_c : Option Cfg) : Except String (List ℚ) := .ok [5]

/-- The full one-bin window `[0, 1, 1]`. -/
def sliceOne (_y _x : List ℚ) (_c : Option Cfg) : Except String (List ℕ) :=
  .ok [0, 1, 1]

/-- Rational bounds `([0], [9])`. -/
def boundOne (_y _x : List ℚ) (_c : Option Cfg) :
    Except String (List ℚ × List ℚ) := .ok ([0], [9])

/-- The labels function used in the successful runs below. -/
def labelsOne : Unit → List String := fun _ => ["p"]

/-- An optimizer that raises (models an exception from the objective during
optimization) exactly on the slot whose sliced data is `[1]` — slot `0` of
`hTwo` — and succeeds with optimum `7`, residuals `[2]` and covariance
diagonal `[3]` elsewhere. -/
def optFail0 : Opt ℚ := fun _ _ _ _ ys _ =>
  if ys = [1] then .error "Exception: objective raised"
  else .ok ⟨[7], [2], some [3]⟩

/-- An initial guess with six parameters on slot data `[1]` and eight
parameters on any other slot. -/
def p0SixEight (y _x : List ℚ) (_c : Option Cfg) : Except String (List ℚ) :=
  .ok (if y = [1] then [1, 2, 3, 4, 5, 6] else [1, 2, 3, 4, 5, 6, 7, 8])

/-- An optimizer that returns its initial guess as the optimum, with zero
residuals and a zero covariance diagonal. -/
def optEcho : Opt ℚ := fun _ q _ _ _ _ => .ok ⟨q, [0], some (q.map (fun _ => 0))⟩

/-- A store with a fit result attached, used for the persistence round-trip
witness. -/
def hRound : Histogram :=
  { bin_width := 1
    bin_edges := [-(1 : ℚ) / 2, 1 / 2]
    bin_centers := [0]
    data := [[4]]
    underflow := [0]
    overflow := [1]
    errors := [[2]]
    fit_result := some [[(some 7, some 3)]]
    fit_result_label := some ["p"]
    fit_chi2_ndof := some [(some 4, some 0)]
    fit_function := some "fit_func"
    fit_axis := some [0]
    xlabel := "x"
    ylabel := "y"
    label := "hist" }

/-- The store of the spec's fill-correctness example: slot shape `(1,)`,
bin centers `0..10` step `1` (the store produced by
`Histogram.init 1 0 10 1`). -/
def hC5 : Histogram :=
  { bin_width := 1
    bin_edges := [-(1 : ℚ)/2, 1/2, 3/2, 5/2, 7/2, 9/2, 11/2, 13/2, 15/2, 17/2, 19/2, 21/2]
    bin_centers := [0, 1, 2, 3, 4, 5, 6, 7, 8, 9, 10]
    data := [[0, 0, 0, 0, 0, 0, 0, 0, 0, 0, 0]]
    underflow := [0]
    overflow := [0]
    errors := [[0, 0, 0, 0, 0, 0, 0, 0, 0, 0, 0]]
    fit_result := none
    fit_result_label := none
    fit_chi2_ndof := none
    fit_function := none
    fit_axis := none
    xlabel := "x"
    ylabel := "y"
    label := "hist" }

/-- Rectangularity of a result array: every slot has the same number of
parameter rows. -/
def Rect (fr : List (List Row)) : Prop :=
  ∃ w, ∀ r ∈ fr, r.length = w

/-! ### Helper lemmas -/

theorem mapIdxFrom_length {α β : Type} (f : ℕ → α → β) :
    ∀ (l : List α) (k : ℕ), (mapIdxFrom f k l).length = l.length := by
  intro l
  induction l with
  | nil => intro k; rfl
  | cons a t ih => intro k; simp [mapIdxFrom, ih]

theorem mapIdxFrom_getD {α β : Type} (f : ℕ → α → β) (d : α) (d' : β) :
    ∀ (l : List α) (k i : ℕ), i < l.length →
      (mapIdxFrom f k l).getD i d' = f (k + i) (l.getD i d) := by
  intro l
  induction l with
  | nil => intro k i hi; simp at hi
  | cons a t ih =>
    intro k i hi
    cases i with
    | zero => simp [mapIdxFrom]
    | succ j =>
      simp only [mapIdxFrom, List.getD_cons_succ]
      rw [ih (k + 1) j (by simpa using hi)]
      ring_nf

theorem list_getD_map {α β : Type} (f : α → β) (d : α) (d' : β) :
    ∀ (l : List α) (i : ℕ), i < l.length →
      (l.map f).getD i d' = f (l.getD i d) := by
  intro l
  induction l with
  | nil => intro i hi; simp at hi
  | cons a t ih =>
    intro i hi
    cases i with
    | zero => simp
    | succ j => simpa using ih j (by simpa using hi)

theorem list_getD_zipWith {α β γ : Type} (f : α → β → γ) (da : α) (db : β) (d : γ) :
    ∀ (l1 : List α) (l2 : List β) (i : ℕ), i < l1.length → i < l2.length →
      (List.zipWith f l1 l2).getD i d = f (l1.getD i da) (l2.getD i db) := by
  intro l1
  induction l1 with
  | nil => intro l2 i h1 _; simp at h1
  | cons a t ih =>
    intro l2 i h1 h2
    cases l2 with
    | nil => simp at h2
    | cons b t2 =>
      cases i with
      | zero => simp
      | succ j =>
        simpa using ih t2 j (by simpa using h1) (by simpa using h2)

/-! ### Claim theorems -/

/-- C10: `Histogram.fit` requires a labels function even though `labels_func`
defaults to `None`: `labels_func()` is invoked before the slot loop, so a call
with the labels function omitted raises `TypeError` before any slot is
fitted and before `fit_result`/`fit_chi2_ndof` are allocated, whatever the
store, strategies, config or optimizer. -/
theorem claim_C10 (β : Type) (inst : Inhabited β) (h : Histogram)
    (func : List ℚ → ℚ → Option Cfg → ℚ)
    (p0F : List ℚ → List ℚ → Option Cfg → Except String (List ℚ))
    (sliceF : List ℚ → List ℚ → Option Cfg → Except String (List ℕ))
    (boundF : List ℚ → List ℚ → Option Cfg → Except String (List β × List β))
    (config : Option (List Cfg)) (fixed_param : List (ℕ × ℚ)) (opt : Opt β) :
    Histogram.fit h func p0F sliceF boundF none config fixed_param opt =
      .error "TypeError: NoneType object is not callable" := rfl

/-- C8 counterexample: constructing a histogram axis from the range
`(0, 10, -1)` — a width `≤ 0` — does **not** fail (with `ConfigError` or
anything else): the constructor returns a histogram. -/
theorem claim_C8_counterexample :
    (Histogram.init 1 0 10 (-1)).isOk = true := by decide

/-- C8 (amended): the constructor performs no width validation.  A zero width
fails only with numpy's `ZeroDivisionError` from `np.arange` (there is no
`ConfigError` in the code), and a negative width (with
`center_min ≤ center_max`) succeeds and silently produces an empty bin axis
with empty per-slot data. -/
theorem claim_C8 :
    (∀ (ds : ℕ) (cmin cmax : ℚ),
      Histogram.init ds cmin cmax 0 = .error "ZeroDivisionError: division by zero") ∧
    (∀ (ds : ℕ) (cmin cmax w : ℚ), w < 0 → cmin ≤ cmax →
      ∃ h, Histogram.init ds cmin cmax w = .ok h ∧ h.bin_centers = [] ∧
        h.data = List.replicate ds []) := by
  constructor
  · intro ds cmin cmax
    simp [Histogram.init, np_arange, Bind.bind, Except.bind]
  · intro ds cmin cmax w hw hle
    have hw0 : w ≠ 0 := ne_of_lt hw
    have hcen : np_arange cmin (cmax + 1) w = .ok [] := by
      have hq : (cmax + 1 - cmin) / w < 0 := by
        apply div_neg_of_pos_of_neg
        · linarith
        · exact hw
      have hceil : ⌈(cmax + 1 - cmin) / w⌉ ≤ 0 :=
        Int.ceil_le.mpr (by push_cast; exact le_of_lt hq)
      simp [np_arange, hw0, Int.toNat_of_nonpos hceil]
    obtain ⟨edges, hedges⟩ : ∃ l, np_arange (cmin - w / 2) (cmax + w / 2 + 1) w = .ok l := by
      simp [np_arange, hw0]
    refine ⟨{ bin_width := w
              bin_edges := edges
              bin_centers := []
              data := List.replicate ds []
              underflow := List.replicate ds 0
              overflow := List.replicate ds 0
              errors := List.replicate ds []
              fit_result := none
              fit_result_label := none
              fit_chi2_ndof := none
              fit_function := none
              fit_axis := none
              xlabel := "x"
              ylabel := "y"
              label := "hist" }, ?_, rfl, rfl⟩
    simp only [Histogram.init, Bind.bind, Except.bind, hedges, hcen]
    rfl

/-- C8 witness for the amended claim: at `(ds, cmin, cmax, w) = (1, 0, 10, 0)`
the constructor raises `ZeroDivisionError`, and at width `-1` it succeeds with
an empty axis. -/
theorem claim_C8_witness :
    Histogram.init 1 0 10 0 = .error "ZeroDivisionError: division by zero" ∧
    ((-1 : ℚ) < 0 ∧ (0 : ℚ) ≤ 10 ∧
      ∃ h, Histogram.init 1 0 10 (-1) = .ok h ∧ h.bin_centers = [] ∧
        h.data = List.replicate 1 []) :=
  ⟨claim_C8.1 1 0 10,
   by norm_num, by norm_num,
   claim_C8.2 1 0 10 (-1) (by norm_num) (by norm_num)⟩

/-- C9 counterexample: warm-starting on `y = [1,1,1]` (three nonzero bins),
`x = [4,5,6]` with prior `baseline 20, gain 2`: the raw estimate
`x[0] + 16 = 20` does not exceed the prior baseline, so no clamping happens
and the returned baseline `20` exceeds `prior baseline - gain/2 = 19`,
refuting the claimed bound (gain, `sigma_e`, `sigma_1` are visibly reused). -/
theorem claim_C9_counterexample :
    FitLowLight.p0_func_config [1, 1, 1] [4, 5, 6] cfgPrior =
      .ok [0, 0, 2, 20, 1, 1, 3, 0] ∧
    ¬ ((20 : ℚ) ≤ 20 - 2 / 2) := by
  constructor
  · norm_num [FitLowLight.p0_func_config, np_average, whereNeZero, Bind.bind, Except.bind,
      cfgPrior, List.range_succ]
  · norm_num

/-- C9 (amended): in the warm start with more than two nonzero bins (and
nonzero total weight, nonnegative prior gain), the baseline is clamped to
`prior baseline - gain/2` only when the raw estimate
`x[first nonzero] + 16` exceeds the prior's baseline; hence the returned
baseline never exceeds the prior's baseline, and never exceeds the larger of
the raw estimate and `prior baseline - gain/2`; the prior's gain, `sigma_e`
and `sigma_1` are reused unchanged. -/
theorem claim_C9 (y x : List ℚ) (config : Cfg)
    (hnz : 2 < (whereNeZero y).length) (hsum : y.sum ≠ 0)
    (hg : 0 ≤ (config.getD 1 []).getD 0 0) :
    ∃ p, FitLowLight.p0_func_config y x config = .ok p ∧
      p.getD 3 0 ≤ (config.getD 0 []).getD 0 0 ∧
      p.getD 3 0 ≤ max (x.getD ((whereNeZero y).headD 0) 0 + 16)
        ((config.getD 0 []).getD 0 0 - (config.getD 1 []).getD 0 0 / 2) ∧
      p.getD 2 0 = (config.getD 1 []).getD 0 0 ∧
      p.getD 4 0 = (config.getD 2 []).getD 0 0 ∧
      p.getD 5 0 = (config.getD 3 []).getD 0 0 := by
  set c00 := (config.getD 0 []).getD 0 0 with hc00
  set c10 := (config.getD 1 []).getD 0 0 with hc10
  set c20 := (config.getD 2 []).getD 0 0 with hc20
  set c30 := (config.getD 3 []).getD 0 0 with hc30
  set b := x.getD ((whereNeZero y).headD 0) 0 + 4 * 4 with hb
  set bl : ℚ := if b > c00 then c00 - c10 / 2 else b with hbl
  obtain ⟨avg, havg⟩ : ∃ a, np_average x y = .ok a := by
    simp [np_average, hsum]
  have hP : FitLowLight.p0_func_config y x config =
      .ok [max 0 ((avg - bl) / c10), 0, c10, bl, c20, c30, y.sum, 0] := by
    simp only [FitLowLight.p0_func_config, if_pos hnz, havg, Bind.bind, Except.bind,
      hbl, hb, hc00, hc10, hc20, hc30]
  have hble : bl ≤ c00 ∧ bl ≤ max b (c00 - c10 / 2) := by
    rw [hbl]
    by_cases hcl : b > c00
    · rw [if_pos hcl]
      exact ⟨by linarith, le_max_right _ _⟩
    · rw [if_neg hcl]
      exact ⟨by linarith [not_lt.mp hcl], le_max_left _ _⟩
  have h16 : x.getD ((whereNeZero y).headD 0) 0 + 16 = b := by
    rw [hb]
    norm_num
  refine ⟨_, hP, ?_, ?_, rfl, rfl, rfl⟩
  · exact hble.1
  · rw [h16]
    exact hble.2

/-- C9 witness: the amended bounds instantiated at
`y = [1,1,1]`, `x = [4,5,6]`, prior `cfgPrior`. -/
theorem claim_C9_witness :
    2 < (whereNeZero [1, 1, 1]).length ∧ ([1, 1, 1] : List ℚ).sum ≠ 0 ∧
    (0 : ℚ) ≤ (cfgPrior.getD 1 []).getD 0 0 ∧
    ∃ p, FitLowLight.p0_func_config [1, 1, 1] [4, 5, 6] cfgPrior = .ok p ∧
      p.getD 3 0 ≤ (cfgPrior.getD 0 []).getD 0 0 ∧
      p.getD 3 0 ≤ max (([4, 5, 6] : List ℚ).getD ((whereNeZero [1, 1, 1]).headD 0) 0 + 16)
        ((cfgPrior.getD 0 []).getD 0 0 - (cfgPrior.getD 1 []).getD 0 0 / 2) ∧
      p.getD 2 0 = (cfgPrior.getD 1 []).getD 0 0 ∧
      p.getD 4 0 = (cfgPrior.getD 2 []).getD 0 0 ∧
      p.getD 5 0 = (cfgPrior.getD 3 []).getD 0 0 :=
  ⟨by decide, by norm_num, by norm_num [cfgPrior],
   claim_C9 [1, 1, 1] [4, 5, 6] cfgPrior (by decide) (by norm_num) (by norm_num [cfgPrior])⟩

/-- C3: persistence round-trip.  Saving a store and loading the archive back
reproduces every field — `data`, `bin_centers`, `bin_edges`, `bin_width`,
`errors`, `underflow`, `overflow`, `fit_result`, `fit_chi2_ndof`,
`fit_result_label` and the fit-function identifier (with `None` encoded as the
`'NoneType'` sentinel, so the store's own identifier must not be the literal
string `"NoneType"`) — as an independent copy. -/
theorem claim_C3 (h : Histogram) (hname : h.fit_function ≠ some "NoneType") :
    Histogram.load (Histogram.save h) = h := by
  obtain ⟨bw, be, bc, d, uf, ov, er, fr, frl, fcn, ff, fa, xl, yl, lb⟩ := h
  cases ff with
  | none => rfl
  | some n =>
    have hn : ¬ (n = "NoneType") := by
      intro hEq
      exact hname (by simp [hEq])
    simp only [Histogram.save, Histogram.load, List.getD_cons_zero]
    rw [if_neg hn]

/-- C3 witness: the round-trip at the concrete fitted store `hRound`. -/
theorem claim_C3_witness :
    hRound.fit_function ≠ some "NoneType" ∧
    Histogram.load (Histogram.save hRound) = hRound :=
  ⟨by decide, claim_C3 hRound (by decide)⟩

/-- C5: single-value fill semantics.  Each call buckets one sample per slot to
`floor((value - bin_edges[0]) / bin_width)` clamped into `[0, N-1]` and
increments `data` at `[slot, bin]` by one; `underflow`, `overflow` and
`errors` are untouched; the two sequential clamp assignments equal clamping
into `[0, N-1]`; values below the axis go to bin `0` and values at/above the
top edge go to bin `N-1`; and filling the store of slot shape `(1,)` with
centers `0..10` step `1` with the values `5,5,5,7` yields `data[0][5] == 3`,
`data[0][7] == 1` and all other bins `0`. -/
theorem claim_C5 :
    (∀ (h : Histogram) (v : List ℚ) (i b : ℕ),
        h.data.length = v.length → i < h.data.length → b < (h.data.getD i []).length →
        ((h.fill v).data.getD i []).getD b 0 =
          (h.data.getD i []).getD b 0 +
            (if (b : ℤ) = clampFillIndex ((h.data.headD []).length : ℤ)
                (h.find_bin (v.getD i 0)) then 1 else 0)) ∧
    (∀ (h : Histogram) (v : List ℚ),
        (h.fill v).underflow = h.underflow ∧ (h.fill v).overflow = h.overflow ∧
        (h.fill v).errors = h.errors) ∧
    (∀ (n k : ℤ), 1 ≤ n → clampFillIndex n k = min (max k 0) (n - 1)) ∧
    (∀ (h : Histogram) (v : ℚ), 0 < h.bin_width → 1 ≤ (h.data.headD []).length →
        v < h.bin_edges.getD 0 0 →
        clampFillIndex ((h.data.headD []).length : ℤ) (h.find_bin v) = 0) ∧
    (∀ (h : Histogram) (v : ℚ), 0 < h.bin_width → 1 ≤ (h.data.headD []).length →
        h.bin_edges.getD 0 0 + ((h.data.headD []).length : ℚ) * h.bin_width ≤ v →
        clampFillIndex ((h.data.headD []).length : ℤ) (h.find_bin v) =
          ((h.data.headD []).length : ℤ) - 1) ∧
    ((Histogram.init 1 0 10 1).map
        (fun h => ((((h.fill [5]).fill [5]).fill [5]).fill [7]).data) =
      .ok [[0, 0, 0, 0, 0, 3, 0, 1, 0, 0, 0]]) := by
  refine ⟨?_, ?_, ?_, ?_, ?_, ?_⟩
  · intro h v i b hlen hi hb
    have hiv : i < v.length := hlen ▸ hi
    simp only [Histogram.fill]
    rw [mapIdxFrom_getD _ [] [] h.data 0 i hi]
    simp only [Nat.zero_add, if_pos hiv]
    rw [mapIdxFrom_getD _ 0 0 (h.data.getD i []) 0 b hb]
    simp only [Nat.zero_add]
    split_ifs with hc
    · ring
    · ring
  · intro h v
    exact ⟨rfl, rfl, rfl⟩
  · intro n k hn
    simp only [clampFillIndex]
    split_ifs <;> omega
  · intro h v hw hn hv
    have hk : h.find_bin v < 0 := by
      have hq : (v - h.bin_edges.getD 0 0) / h.bin_width < 0 :=
        div_neg_of_neg_of_pos (by linarith) hw
      have := Int.floor_lt.mpr (show (v - h.bin_edges.getD 0 0) / h.bin_width < ((0 : ℤ) : ℚ)
        by push_cast; exact hq)
      simpa [Histogram.find_bin] using this
    simp only [clampFillIndex]
    split_ifs <;> omega
  · intro h v hw hn hv
    have hk : ((h.data.headD []).length : ℤ) ≤ h.find_bin v := by
      apply Int.le_floor.mpr
      rw [le_div_iff₀ hw]
      push_cast
      linarith
    simp only [clampFillIndex]
    split_ifs <;> omega
  · have h12 : Int.toNat ⌈((10 + 1 / 2 + 1 : ℚ) - (0 - 1 / 2)) / 1⌉ = 12 := by
      norm_num
      rfl
    have h11 : Int.toNat ⌈((10 + 1 : ℚ) - 0) / 1⌉ = 11 := by
      norm_num
      rfl
    have harr : np_arange (0 - 1 / 2) (10 + 1 / 2 + 1) 1 =
        .ok [-(1 : ℚ)/2, 1/2, 3/2, 5/2, 7/2, 9/2, 11/2, 13/2, 15/2, 17/2, 19/2, 21/2] := by
      simp only [np_arange, if_neg (show ¬ (1 : ℚ) = 0 by norm_num), h12]
      norm_num [List.range_succ]
    have hcen : np_arange 0 (10 + 1) 1 =
        .ok [(0 : ℚ), 1, 2, 3, 4, 5, 6, 7, 8, 9, 10] := by
      simp only [np_arange, if_neg (show ¬ (1 : ℚ) = 0 by norm_num), h11]
      norm_num [List.range_succ]
    have hinit : Histogram.init 1 0 10 1 = .ok hC5 := by
      simp only [Histogram.init, Bind.bind, Except.bind, harr, hcen]
      rfl
    rw [hinit]
    have hdata : ((((hC5.fill [5]).fill [5]).fill [5]).fill [7]).data =
        [[0, 0, 0, 0, 0, 3, 0, 1, 0, 0, 0]] := by
      norm_num [Histogram.fill, mapIdxFrom, Histogram.find_bin, clampFillIndex, hC5]
    simp only [Except.map, hdata]

/-- C5 witness: the general fill characterization applied to the concrete
store `hC5` with sample `5` at slot `0`, bin `5`; the clamp identity at
`(n, k) = (11, -3)`; and the below- and above-axis clamp at samples `-10` and
`50`. -/
theorem claim_C5_witness :
    (hC5.data.length = ([5] : List ℚ).length ∧ 0 < hC5.data.length ∧
      5 < (hC5.data.getD 0 []).length ∧
      ((hC5.fill [5]).data.getD 0 []).getD 5 0 =
        (hC5.data.getD 0 []).getD 5 0 +
          (if ((5 : ℕ) : ℤ) = clampFillIndex ((hC5.data.headD []).length : ℤ)
              (hC5.find_bin (([5] : List ℚ).getD 0 0)) then 1 else 0)) ∧
    ((1 : ℤ) ≤ 11 ∧ clampFillIndex 11 (-3) = min (max (-3) 0) (11 - 1)) ∧
    (0 < hC5.bin_width ∧ 1 ≤ (hC5.data.headD []).length ∧
      (-10 : ℚ) < hC5.bin_edges.getD 0 0 ∧
      clampFillIndex ((hC5.data.headD []).length : ℤ) (hC5.find_bin (-10)) = 0) ∧
    (hC5.bin_edges.getD 0 0 + ((hC5.data.headD []).length : ℚ) * hC5.bin_width ≤ 50 ∧
      clampFillIndex ((hC5.data.headD []).length : ℤ) (hC5.find_bin 50) =
        ((hC5.data.headD []).length : ℤ) - 1) :=
  ⟨⟨rfl, by decide, by decide,
    claim_C5.1 hC5 [5] 0 5 rfl (by decide) (by decide)⟩,
   ⟨by norm_num, claim_C5.2.2.1 11 (-3) (by norm_num)⟩,
   ⟨by norm_num [hC5], by decide, by norm_num [hC5],
    claim_C5.2.2.2.1 hC5 (-10) (by norm_num [hC5]) (by decide) (by norm_num [hC5])⟩,
   ⟨by norm_num [hC5],
    claim_C5.2.2.2.2.1 hC5 50 (by norm_num [hC5]) (by decide) (by norm_num [hC5])⟩⟩

/-- C7: Poisson-error floor.  After `_compute_errors` every entry equals
`sqrt(data)` except that entries with `data == 0` become `1`; every
`fill_with_batch` ends by recomputing the errors of the whole store; and
concretely a bin with `data == 0` gets error `1` while a bin with `data == 4`
gets error `2`. -/
theorem claim_C7 :
    (∀ (d : List (List ℚ)) (i j : ℕ), i < d.length → j < (d.getD i []).length →
        0 ≤ (d.getD i []).getD j 0 →
        ((computeErrors d).getD i []).getD j 0 =
          (if (d.getD i []).getD j 0 = 0 then 1
           else Real.sqrt (((d.getD i []).getD j 0 : ℚ) : ℝ))) ∧
    (∀ (h : Histogram) (b : List (List ℚ)),
        (h.fill_with_batch b).errors = computeErrors ((h.fill_with_batch b).data)) ∧
    computeErrors [[0, 4]] = [[1, 2]] := by
  refine ⟨?_, ?_, ?_⟩
  · intro d i j hi hj hq
    simp only [computeErrors]
    rw [list_getD_map _ ([] : List ℚ) ([] : List ℝ) d i hi]
    rw [list_getD_map _ (0 : ℚ) (0 : ℝ) (d.getD i []) j hj]
    set q := (d.getD i []).getD j 0 with hqdef
    by_cases h0 : q = 0
    · simp [h0]
    · have hpos : (0 : ℝ) < (q : ℝ) := by
        have : (0 : ℚ) < q := lt_of_le_of_ne hq (Ne.symm h0)
        exact_mod_cast this
      have hs : Real.sqrt (q : ℝ) ≠ 0 := ne_of_gt (Real.sqrt_pos.mpr hpos)
      simp [h0, hs]
  · intro h b
    rfl
  · have h0 : Real.sqrt (0 : ℝ) = 0 := Real.sqrt_zero
    have h4 : Real.sqrt (4 : ℝ) = 2 := by
      rw [show ((4 : ℝ)) = (2 : ℝ) ^ 2 by norm_num]
      exact Real.sqrt_sq (by norm_num)
    norm_num [computeErrors, h0, h4]

/-- C7 witness: the error-floor characterization applied at `data = [[0, 4]]`,
slot `0`, bin `1` (the bin holding `4`), and the errors-recomputation identity
at a concrete batch fill. -/
theorem claim_C7_witness :
    (0 < ([[0, 4]] : List (List ℚ)).length ∧
      1 < (([[0, 4]] : List (List ℚ)).getD 0 []).length ∧
      (0 : ℚ) ≤ (([[0, 4]] : List (List ℚ)).getD 0 []).getD 1 0 ∧
      ((computeErrors [[0, 4]]).getD 0 []).getD 1 0 =
        (if (([[0, 4]] : List (List ℚ)).getD 0 []).getD 1 0 = 0 then 1
         else Real.sqrt ((((([[0, 4]] : List (List ℚ)).getD 0 []).getD 1 0 : ℚ)) : ℝ))) ∧
    (hC5.fill_with_batch [[5]]).errors =
      computeErrors ((hC5.fill_with_batch [[5]]).data) :=
  ⟨⟨by norm_num, by norm_num, by norm_num,
    claim_C7.1 [[0, 4]] 0 1 (by norm_num) (by norm_num) (by norm_num)⟩,
   claim_C7.2.1 hC5 [[5]]⟩

/-- Length of a `np.histogram` result: one count per bin. -/
theorem np_histogram_length (edges samples : List ℚ) :
    (np_histogram edges samples).length = edges.length - 1 := by
  simp [np_histogram]

/-- Entry `b` of a `np.histogram` result is the number of samples in bin `b`. -/
theorem np_histogram_getD (edges samples : List ℚ) (b : ℕ) (hb : b < edges.length - 1) :
    (np_histogram edges samples).getD b 0 = samples.countP (binContains edges b) := by
  simp only [np_histogram]
  rw [list_getD_map _ 0 0 (List.range (edges.length - 1)) b (by simpa using hb)]
  congr 1
  simp [List.getD, List.getElem?_range hb]

/-- C4 (amended): batch-fill bookkeeping.  `fill_with_batch` adds to each
slot's `data` the histogram of its samples over `bin_edges`, adds to the
slot's `underflow` the count of samples **at or below** the first edge (the
source counts `~(batch > edges[0])`, so a sample equal to the first edge is
counted — the claim's "below the first edge" fails there), adds to its
`overflow` the count of samples at/above the **second** edge, and recomputes
the whole store's errors; a sample above every edge lands in no data bin. -/
theorem claim_C4 :
    (∀ (h : Histogram) (batch : List (List ℚ)) (i b : ℕ),
        i < h.data.length → i < batch.length → b < (h.data.getD i []).length →
        b < h.bin_edges.length - 1 →
        ((h.fill_with_batch batch).data.getD i []).getD b 0 =
          (h.data.getD i []).getD b 0 +
            (((batch.getD i []).countP (binContains h.bin_edges b) : ℕ) : ℚ)) ∧
    (∀ (h : Histogram) (batch : List (List ℚ)) (i : ℕ),
        i < h.underflow.length → i < batch.length →
        (h.fill_with_batch batch).underflow.getD i 0 =
          h.underflow.getD i 0 +
            (((batch.getD i []).countP
                (fun v => decide (v ≤ h.bin_edges.getD 0 0)) : ℕ) : ℚ)) ∧
    (∀ (h : Histogram) (batch : List (List ℚ)) (i : ℕ),
        i < h.overflow.length → i < batch.length →
        (h.fill_with_batch batch).overflow.getD i 0 =
          h.overflow.getD i 0 +
            (((batch.getD i []).countP
                (fun v => decide (h.bin_edges.getD 1 0 ≤ v)) : ℕ) : ℚ)) ∧
    (∀ (h : Histogram) (batch : List (List ℚ)),
        (h.fill_with_batch batch).errors =
          computeErrors ((h.fill_with_batch batch).data)) ∧
    (∀ (edges : List ℚ) (b : ℕ) (v : ℚ), b < edges.length - 1 →
        (∀ j, j < edges.length → edges.getD j 0 < v) →
        binContains edges b v = false) := by
  refine ⟨?_, ?_, ?_, ?_, ?_⟩
  · intro h batch i b hi hib hb hbe
    simp only [Histogram.fill_with_batch]
    rw [list_getD_zipWith _ [] [] [] h.data _ i hi (by simpa using hib)]
    rw [list_getD_map _ [] [] batch i hib]
    rw [list_getD_zipWith _ 0 0 0 _ _ b hb
      (by simpa [np_histogram_length] using hbe)]
    rw [list_getD_map _ 0 0 (np_histogram h.bin_edges (batch.getD i [])) b
      (by simpa [np_histogram_length] using hbe)]
    rw [np_histogram_getD _ _ b hbe]
  · intro h batch i hi hib
    simp only [Histogram.fill_with_batch]
    rw [list_getD_zipWith _ 0 0 0 h.underflow _ i hi (by simpa using hib)]
    rw [list_getD_map _ [] 0 batch i hib]
    congr 2
    apply List.countP_congr
    intro a _
    simp [not_lt]
  · intro h batch i hi hib
    simp only [Histogram.fill_with_batch]
    rw [list_getD_zipWith _ 0 0 0 h.overflow _ i hi (by simpa using hib)]
    rw [list_getD_map _ [] 0 batch i hib]
    congr 2
    apply List.countP_congr
    intro a _
    simp [not_lt]
  · intro h batch
    rfl
  · intro edges b v hb hall
    have hb1 : b + 1 < edges.length := by omega
    have := hall (b + 1) hb1
    simp only [binContains, Bool.and_eq_false_iff]
    right
    split_ifs with hlast
    · simpa [List.getD] using this
    · simpa [List.getD] using le_of_lt this

/-- C4 counterexample: batch-filling `hZero` with the single sample `-1/2`,
which equals the first bin edge (so it is *not* below it), nevertheless
increments the slot's `underflow` to `1`, while the count of samples strictly
below the first edge is `0` — refuting "underflow counts the samples below the
first edge". -/
theorem claim_C4_counterexample :
    (hZero.fill_with_batch [[-(1 : ℚ) / 2]]).underflow = [1] ∧
    ([-(1 : ℚ) / 2] : List ℚ).countP (fun v => decide (v < -(1 : ℚ) / 2)) = 0 := by
  constructor
  · norm_num [Histogram.fill_with_batch, hZero]
  · norm_num

/-- C4 witness: the amended bookkeeping applied to `hZero` with batch
`[[3]]` (underflow count), and the no-bin fact for sample `100`, above every
edge of `hZero`. -/
theorem claim_C4_witness :
    ((hZero.fill_with_batch [[3]]).underflow.getD 0 0 =
      hZero.underflow.getD 0 0 +
        ((([[(3 : ℚ)]] : List (List ℚ)).getD 0 []).countP
            (fun v => decide (v ≤ hZero.bin_edges.getD 0 0)) : ℕ)) ∧
    binContains hZero.bin_edges 0 100 = false := by
  have hall : ∀ j, j < hZero.bin_edges.length → hZero.bin_edges.getD j 0 < 100 := by
    intro j hj
    simp only [hZero, List.length_cons, List.length_nil] at hj
    interval_cases j <;> norm_num [hZero]
  exact ⟨claim_C4.2.1 hZero [[3]] 0 (by decide) (by decide),
    claim_C4.2.2.2.2 hZero.bin_edges 0 100 (by decide) hall⟩

/-- C1 counterexample: fitting a store whose single slot is entirely zero,
with the low-light strategy (warm start) — the exception raised by `p0_func`
(`np.average` on zero weights) is *not* caught: it propagates out of
`Histogram.fit`, which therefore does not produce the claimed NaN-filled
per-slot failure. -/
theorem claim_C1_counterexample :
    Histogram.fit hZero trivFunc lowlightP0F lowlightSliceF lowlightBoundF
      (some labelsOne) (some [cfgPrior]) [] idleOpt =
    .error "ZeroDivisionError: Weights sum to zero" := by
  have havg : np_average [0, 1, 2] [0, 0, 0] =
      .error "ZeroDivisionError: Weights sum to zero" := by
    norm_num [np_average]
  have hp0 : FitLowLight.p0_func_config [0, 0, 0] [0, 1, 2] cfgPrior =
      .error "ZeroDivisionError: Weights sum to zero" := by
    simp only [FitLowLight.p0_func_config, Bind.bind, Except.bind, havg]
  simp only [Histogram.fit, hZero, fitLoop, fitStep, lowlightP0F,
    List.length_cons, List.length_nil, Option.map_some', List.getD_cons_zero, hp0]

/-- C1 (amended): per-slot failure isolation holds only for exceptions raised
during optimization (including by the objective): such a slot gets an all-NaN
fit-result row and NaN chi-square, and the loop continues, so the next slot is
still fitted (first run: the optimizer raises on slot 0 and succeeds on slot
1).  Exceptions from `p0_func`/`slice_func`/`bound_func` are *not* caught and
abort the whole fit; in particular an all-zero slot under the low-light
strategy raises out of `fit` instead of yielding NaN results (second run). -/
theorem claim_C1 :
    (Histogram.fit hTwo trivFunc p0One sliceOne boundOne (some labelsOne) none [] optFail0 =
      .ok { fit_result_label := ["p"]
            fit_result := some [[(none, none)], [(some 7, some 3)]]
            fit_chi2_ndof := some [(none, some 0), (some 4, some 0)] }) ∧
    (Histogram.fit hZero trivFunc lowlightP0F lowlightSliceF lowlightBoundF
        (some labelsOne) (some [cfgPrior]) [] idleOpt =
      .error "ZeroDivisionError: Weights sum to zero") := by
  constructor
  · have hne1 : ¬ (([0, 1, 1] : List ℕ) = [0, 0, 1]) := by decide
    have hne2 : ¬ (([0, 1, 1] : List ℕ) = []) := by decide
    have hps1 : pySlice ([1] : List ℚ) 0 1 1 = [1] := by
      norm_num [pySlice, List.filterMap, List.range_succ]
    have hps2 : pySlice ([2] : List ℚ) 0 1 1 = [2] := by
      norm_num [pySlice, List.filterMap, List.range_succ]
    have haxis0 : ∀ (errs : List ℝ) (f : List ℚ → ℚ → ℚ),
        axisFit optFail0 [1] [0] errs f [5] [0, 1, 1] ([0], [9]) none =
          ([nanRow], none, 0) := by
      intro errs f
      simp only [axisFit, if_neg hne1, if_neg hne2, hps1]
      norm_num [optFail0, hps1, nanRow, List.getD]
    have haxis1 : ∀ (errs : List ℝ) (f : List ℚ → ℚ → ℚ),
        axisFit optFail0 [2] [0] errs f [5] [0, 1, 1] ([0], [9]) none =
          ([(some 7, some 3)], some 4, 0) := by
      intro errs f
      simp only [axisFit, if_neg hne1, if_neg hne2, hps2]
      norm_num [optFail0, hps1, hps2, List.getD]
    have hstep0 : fitStep hTwo trivFunc p0One sliceOne boundOne none [] optFail0
        (none, none) 0 =
        .ok (some [[nanRow], [nanRow]],
             some [((none : Option ℚ), (some 0 : Option ℚ)), nanRow]) := by
      simp only [fitStep, hTwo, p0One, sliceOne, boundOne, Option.map_none',
        List.getD_cons_zero, haxis0, List.length_cons, List.length_nil, List.isEmpty_nil]
      norm_num [haxis0, nanRow, List.replicate]
    have hstep1 : fitStep hTwo trivFunc p0One sliceOne boundOne none [] optFail0
        (some [[nanRow], [nanRow]],
         some [((none : Option ℚ), (some 0 : Option ℚ)), nanRow]) 1 =
        .ok (some [[nanRow], [(some 7, some 3)]],
             some [((none : Option ℚ), (some 0 : Option ℚ)), (some 4, some 0)]) := by
      simp only [fitStep, hTwo, p0One, sliceOne, boundOne, Option.map_none',
        List.getD_cons_zero, List.getD_cons_succ, haxis1, List.length_cons,
        List.length_nil, List.isEmpty_nil]
      norm_num [haxis1, nanRow]
    have hr2 : List.range 2 = [0, 1] := by decide
    have hlen : hTwo.data.length = 2 := rfl
    have hfr : hTwo.fit_result = none := rfl
    have hfc : hTwo.fit_chi2_ndof = none := rfl
    simp only [Histogram.fit, hlen, hfr, hfc, hr2, fitLoop, hstep0, hstep1, labelsOne]
    rfl
  · have havg : np_average [0, 1, 2] [0, 0, 0] =
        .error "ZeroDivisionError: Weights sum to zero" := by
      norm_num [np_average]
    have hp0 : FitLowLight.p0_func_config [0, 0, 0] [0, 1, 2] cfgPrior =
        .error "ZeroDivisionError: Weights sum to zero" := by
      simp only [FitLowLight.p0_func_config, Bind.bind, Except.bind, havg]
    simp only [Histogram.fit, hZero, fitLoop, fitStep, lowlightP0F,
      List.length_cons, List.length_nil, Option.map_some', List.getD_cons_zero, hp0]
theorem list_getD_length_of_rect (fr : List (List Row)) (w : ℕ) (i : ℕ)
    (hw : ∀ r ∈ fr, r.length = w) (hi : i < fr.length) :
    (fr.getD i []).length = w := by
  rw [List.getD_eq_getElem fr [] hi]
  exact hw _ (List.getElem_mem hi)

theorem step_rect_aux (s : ℕ) (fr fr2 : List (List Row)) (res res2 : List Row) (i : ℕ)
    (hfr2 : fr2 = if (fr.getD i []).length < res.length then
        fr.map (fun row => row ++ List.replicate (res.length - (fr.getD i []).length) zeroRow)
      else fr)
    (hres2 : res2 = if res.length < (fr2.getD i []).length then
        res ++ List.replicate ((fr2.getD i []).length - res.length) zeroRow
      else res)
    (w : ℕ) (hw : ∀ r ∈ fr, r.length = w) (hlen : fr.length = s) :
    (fr2.set i res2).length = s ∧ ∃ w', ∀ r ∈ fr2.set i res2, r.length = w' := by
  have hfr2len : fr2.length = fr.length := by
    rw [hfr2]
    split_ifs <;> simp
  constructor
  · simp [hfr2len, hlen]
  · by_cases hi : i < fr.length
    · have hgd : (fr.getD i []).length = w := list_getD_length_of_rect fr w i hw hi
      by_cases hA : (fr.getD i []).length < res.length
      · have hAw : w < res.length := by rw [hgd] at hA; exact hA
        have hw2 : ∀ r ∈ fr2, r.length = res.length := by
          rw [hfr2, if_pos hA]
          intro r hr
          obtain ⟨row, hrow, hreq⟩ := List.mem_map.mp hr
          subst hreq
          have hrl := hw row hrow
          rw [List.length_append, List.length_replicate, hrl, hgd]
          omega
        have hgd2 : (fr2.getD i []).length = res.length :=
          list_getD_length_of_rect fr2 _ i hw2 (by omega)
        have hres2e : res2 = res := by
          rw [hres2, hgd2, if_neg (lt_irrefl _)]
        refine ⟨res.length, fun r hr => ?_⟩
        rcases List.mem_or_eq_of_mem_set hr with hmem | heq
        · exact hw2 r hmem
        · rw [heq, hres2e]
      · have hfr2e : fr2 = fr := by rw [hfr2, if_neg hA]
        have hgd2 : (fr2.getD i []).length = w := by rw [hfr2e]; exact hgd
        have hAw : res.length ≤ w := by rw [hgd] at hA; omega
        have hres2len : res2.length = w := by
          rw [hres2, hgd2]
          split_ifs with hB
          · rw [List.length_append, List.length_replicate]
            omega
          · omega
        refine ⟨w, fun r hr => ?_⟩
        rcases List.mem_or_eq_of_mem_set hr with hmem | heq
        · rw [hfr2e] at hmem
          exact hw r hmem
        · rw [heq]
          exact hres2len
    · rw [List.set_eq_of_length_le (by omega)]
      rw [hfr2]
      split_ifs with hA
      · refine ⟨w + (res.length - (fr.getD i []).length), fun r hr => ?_⟩
        obtain ⟨row, hrow, hreq⟩ := List.mem_map.mp hr
        subst hreq
        rw [List.length_append, List.length_replicate, hw row hrow]
      · exact ⟨w, hw⟩
theorem fitStep_rect {β : Type} [Inhabited β] (h : Histogram)
    (func : List ℚ → ℚ → Option Cfg → ℚ)
    (p0F : List ℚ → List ℚ → Option Cfg → Except String (List ℚ))
    (sliceF : List ℚ → List ℚ → Option Cfg → Except String (List ℕ))
    (boundF : List ℚ → List ℚ → Option Cfg → Except String (List β × List β))
    (config : Option (List Cfg)) (fixed_param : List (ℕ × ℚ)) (opt : Opt β)
    (st : FitState) (i : ℕ) (st' : FitState)
    (hst : st.1 = none ∨ ∃ fr, st.1 = some fr ∧ fr.length = h.data.length ∧ Rect fr)
    (hstep : fitStep h func p0F sliceF boundF config fixed_param opt st i = .ok st') :
    ∃ fr, st'.1 = some fr ∧ fr.length = h.data.length ∧ Rect fr := by
  obtain ⟨st1, st2⟩ := st
  rcases hst with hnone | ⟨fr0, hfr0, hlen0, hrect0⟩
  · have hnone' : st1 = none := hnone
    subst hnone'
    rcases hp : p0F (h.data.getD i []) h.bin_centers
        (Option.map (fun cl => cl.getD i []) config) with e | p0
    · simp only [fitStep, hp] at hstep
      exact absurd hstep (by simp)
    · rcases hsl : sliceF (h.data.getD i []) h.bin_centers
          (Option.map (fun cl => cl.getD i []) config) with e2 | sl
      · simp only [fitStep, hp, hsl] at hstep
        exact absurd hstep (by simp)
      · rcases hbd : boundF (h.data.getD i []) h.bin_centers
            (Option.map (fun cl => cl.getD i []) config) with e3 | bd
        · simp only [fitStep, hp, hsl, hbd] at hstep
          exact absurd hstep (by simp)
        · simp only [fitStep, hp, hsl, hbd, Except.ok.injEq] at hstep
          subst hstep
          obtain ⟨hl, hr⟩ := step_rect_aux h.data.length
            (List.replicate h.data.length (List.replicate p0.length nanRow)) _ _ _ i rfl rfl
            (List.replicate p0.length nanRow).length
            (fun r hrm => by rw [List.eq_of_mem_replicate hrm])
            (by simp)
          exact ⟨_, rfl, hl, hr⟩
  · have hfr0' : st1 = some fr0 := hfr0
    subst hfr0'
    obtain ⟨w, hw⟩ := hrect0
    rcases hp : p0F (h.data.getD i []) h.bin_centers
        (Option.map (fun cl => cl.getD i []) config) with e | p0
    · simp only [fitStep, hp] at hstep
      exact absurd hstep (by simp)
    · rcases hsl : sliceF (h.data.getD i []) h.bin_centers
          (Option.map (fun cl => cl.getD i []) config) with e2 | sl
      · simp only [fitStep, hp, hsl] at hstep
        exact absurd hstep (by simp)
      · rcases hbd : boundF (h.data.getD i []) h.bin_centers
            (Option.map (fun cl => cl.getD i []) config) with e3 | bd
        · simp only [fitStep, hp, hsl, hbd] at hstep
          exact absurd hstep (by simp)
        · simp only [fitStep, hp, hsl, hbd, Except.ok.injEq] at hstep
          subst hstep
          obtain ⟨hl, hr⟩ := step_rect_aux h.data.length fr0 _ _ _ i rfl rfl w hw hlen0
          exact ⟨_, rfl, hl, hr⟩

/-- The slot loop preserves the rectangularity invariant of `fit_result`. -/
theorem fitLoop_rect {β : Type} [Inhabited β] (h : Histogram)
    (func : List ℚ → ℚ → Option Cfg → ℚ)
    (p0F : List ℚ → List ℚ → Option Cfg → Except String (List ℚ))
    (sliceF : List ℚ → List ℚ → Option Cfg → Except String (List ℕ))
    (boundF : List ℚ → List ℚ → Option Cfg → Except String (List β × List β))
    (config : Option (List Cfg)) (fixed_param : List (ℕ × ℚ)) (opt : Opt β) :
    ∀ (l : List ℕ) (st st' : FitState),
      (st.1 = none ∨ ∃ fr, st.1 = some fr ∧ fr.length = h.data.length ∧ Rect fr) →
      fitLoop h func p0F sliceF boundF config fixed_param opt l st = .ok st' →
      (st'.1 = none ∨ ∃ fr, st'.1 = some fr ∧ fr.length = h.data.length ∧ Rect fr) := by
  intro l
  induction l with
  | nil =>
    intro st st' hst hloop
    simp only [fitLoop, Except.ok.injEq] at hloop
    subst hloop
    exact hst
  | cons i rest ih =>
    intro st st' hst hloop
    simp only [fitLoop] at hloop
    rcases hmid : fitStep h func p0F sliceF boundF config fixed_param opt st i with e | mid
    · rw [hmid] at hloop
      exact absurd hloop (by simp)
    · rw [hmid] at hloop
      exact ih mid st'
        (Or.inr (fitStep_rect h func p0F sliceF boundF config fixed_param opt st i mid hst hmid))
        hloop

/-- C2: parameter-count reconciliation.  First part: for any store whose
pre-existing `fit_result` is absent or rectangular over all slots, a
successful `Histogram.fit` leaves `fit_result` (when allocated) rectangular
with one row-list per slot — the zero-padding of the shared array and of
short new results keeps the array rectangular after every slot.  Second part:
fitting slot A with a 6-parameter guess and slot B with an 8-parameter guess
leaves `fit_result` with parameter-axis length 8 (hence `≥ 8`), slot A's two
extra rows zero-filled. -/
theorem claim_C2 :
    (∀ (β : Type) (inst : Inhabited β) (h : Histogram)
        (func : List ℚ → ℚ → Option Cfg → ℚ)
        (p0F : List ℚ → List ℚ → Option Cfg → Except String (List ℚ))
        (sliceF : List ℚ → List ℚ → Option Cfg → Except String (List ℕ))
        (boundF : List ℚ → List ℚ → Option Cfg → Except String (List β × List β))
        (labelsF : Option (Unit → List String)) (config : Option (List Cfg))
        (fixed_param : List (ℕ × ℚ)) (opt : Opt β) (out : FitOut),
        (h.fit_result = none ∨
          ∃ fr0, h.fit_result = some fr0 ∧ fr0.length = h.data.length ∧ Rect fr0) →
        Histogram.fit h func p0F sliceF boundF labelsF config fixed_param opt = .ok out →
        (out.fit_result = none ∨
          ∃ fr, out.fit_result = some fr ∧ fr.length = h.data.length ∧ Rect fr)) ∧
    (Histogram.fit hTwo trivFunc p0SixEight sliceOne boundOne (some labelsOne) none [] optEcho =
      .ok { fit_result_label := ["p"]
            fit_result := some
              [[(some 1, some 0), (some 2, some 0), (some 3, some 0), (some 4, some 0),
                (some 5, some 0), (some 6, some 0), (some 0, some 0), (some 0, some 0)],
               [(some 1, some 0), (some 2, some 0), (some 3, some 0), (some 4, some 0),
                (some 5, some 0), (some 6, some 0), (some 7, some 0), (some 8, some 0)]]
            fit_chi2_ndof := some [(some 0, some (-5)), (some 0, some (-7))] }) := by
  constructor
  · intro β inst h func p0F sliceF boundF labelsF config fixed_param opt out hinit hfit
    rcases labelsF with _ | lf
    · simp only [Histogram.fit] at hfit
      exact absurd hfit (by simp)
    · simp only [Histogram.fit] at hfit
      rcases hloop : fitLoop h func p0F sliceF boundF config fixed_param opt
          (List.range h.data.length) (h.fit_result, h.fit_chi2_ndof) with e | stf
      · rw [hloop] at hfit
        exact absurd hfit (by simp)
      · rw [hloop] at hfit
        simp only [Except.ok.injEq] at hfit
        subst hfit
        exact fitLoop_rect h func p0F sliceF boundF config fixed_param opt
          (List.range h.data.length) (h.fit_result, h.fit_chi2_ndof) stf hinit hloop
  · have hne1 : ¬ (([0, 1, 1] : List ℕ) = [0, 0, 1]) := by decide
    have hne2 : ¬ (([0, 1, 1] : List ℕ) = []) := by decide
    have haxis6 : ∀ (y : List ℚ) (errs : List ℝ) (f : List ℚ → ℚ → ℚ),
        axisFit optEcho y [0] errs f [1, 2, 3, 4, 5, 6] [0, 1, 1] ([0], [9]) none =
          ([(some 1, some 0), (some 2, some 0), (some 3, some 0), (some 4, some 0),
            (some 5, some 0), (some 6, some 0)], some 0, -5) := by
      intro y errs f
      simp only [axisFit, if_neg hne1, if_neg hne2]
      norm_num [optEcho, List.getD]
    have haxis8 : ∀ (y : List ℚ) (errs : List ℝ) (f : List ℚ → ℚ → ℚ),
        axisFit optEcho y [0] errs f [1, 2, 3, 4, 5, 6, 7, 8] [0, 1, 1] ([0], [9]) none =
          ([(some 1, some 0), (some 2, some 0), (some 3, some 0), (some 4, some 0),
            (some 5, some 0), (some 6, some 0), (some 7, some 0), (some 8, some 0)],
           some 0, -7) := by
      intro y errs f
      simp only [axisFit, if_neg hne1, if_neg hne2]
      norm_num [optEcho, List.getD]
    have hp0a : ∀ c, p0SixEight [1] [0] c = .ok [1, 2, 3, 4, 5, 6] := by
      intro c
      norm_num [p0SixEight]
    have hp0b : ∀ c, p0SixEight [2] [0] c = .ok [1, 2, 3, 4, 5, 6, 7, 8] := by
      intro c
      norm_num [p0SixEight]
    have hstep0 : fitStep hTwo trivFunc p0SixEight sliceOne boundOne none [] optEcho
        (none, none) 0 =
        .ok (some [[(some 1, some 0), (some 2, some 0), (some 3, some 0), (some 4, some 0),
                    (some 5, some 0), (some 6, some 0)],
                   List.replicate 6 nanRow],
             some [((some 0 : Option ℚ), (some (-5) : Option ℚ)), nanRow]) := by
      simp only [fitStep, hTwo, hp0a, sliceOne, boundOne, Option.map_none',
        List.getD_cons_zero, haxis6, List.length_cons, List.length_nil, List.isEmpty_nil]
      norm_num [haxis6, nanRow, List.replicate]
    have hstep1 : fitStep hTwo trivFunc p0SixEight sliceOne boundOne none [] optEcho
        (some [[(some 1, some 0), (some 2, some 0), (some 3, some 0), (some 4, some 0),
                (some 5, some 0), (some 6, some 0)],
               List.replicate 6 nanRow],
         some [((some 0 : Option ℚ), (some (-5) : Option ℚ)), nanRow]) 1 =
        .ok (some [[(some 1, some 0), (some 2, some 0), (some 3, some 0), (some 4, some 0),
                    (some 5, some 0), (some 6, some 0), (some 0, some 0), (some 0, some 0)],
                   [(some 1, some 0), (some 2, some 0), (some 3, some 0), (some 4, some 0),
                    (some 5, some 0), (some 6, some 0), (some 7, some 0), (some 8, some 0)]],
             some [((some 0 : Option ℚ), (some (-5) : Option ℚ)),
                   ((some 0 : Option ℚ), (some (-7) : Option ℚ))]) := by
      simp only [fitStep, hTwo, hp0b, sliceOne, boundOne, Option.map_none',
        List.getD_cons_zero, List.getD_cons_succ, haxis8, List.length_cons, List.length_nil,
        List.isEmpty_nil]
      norm_num [haxis8, nanRow, zeroRow, List.replicate]
    have hr2 : List.range 2 = [0, 1] := by decide
    have hlen : hTwo.data.length = 2 := rfl
    have hfr : hTwo.fit_result = none := rfl
    have hfc : hTwo.fit_chi2_ndof = none := rfl
    simp only [Histogram.fit, hlen, hfr, hfc, hr2, fitLoop, hstep0, hstep1, labelsOne]

/-- C2 witness: the rectangularity result applied to the concrete
six-then-eight-parameter run on `hTwo` (whose `fit_result` starts out
absent). -/
theorem claim_C2_witness :
    hTwo.fit_result = none ∧
    (({ fit_result_label := ["p"]
        fit_result := some
          [[(some 1, some 0), (some 2, some 0), (some 3, some 0), (some 4, some 0),
            (some 5, some 0), (some 6, some 0), (some 0, some 0), (some 0, some 0)],
           [(some 1, some 0), (some 2, some 0), (some 3, some 0), (some 4, some 0),
            (some 5, some 0), (some 6, some 0), (some 7, some 0), (some 8, some 0)]]
        fit_chi2_ndof := some [(some 0, some (-5)), (some 0, some (-7))] } : FitOut).fit_result
        = none ∨
      ∃ fr, ({ fit_result_label := ["p"]
               fit_result := some
                 [[(some 1, some 0), (some 2, some 0), (some 3, some 0), (some 4, some 0),
                   (some 5, some 0), (some 6, some 0), (some 0, some 0), (some 0, some 0)],
                  [(some 1, some 0), (some 2, some 0), (some 3, some 0), (some 4, some 0),
                   (some 5, some 0), (some 6, some 0), (some 7, some 0), (some 8, some 0)]]
               fit_chi2_ndof := some [(some 0, some (-5)), (some 0, some (-7))] } : FitOut).fit_result
          = some fr ∧ fr.length = hTwo.data.length ∧ Rect fr) :=
  ⟨rfl, claim_C2.1 ℚ inferInstance hTwo trivFunc p0SixEight sliceOne boundOne
    (some labelsOne) none [] optEcho _ (Or.inl rfl) claim_C2.2⟩

theorem pickFrom_drop {β : Type} (d : β) :
    ∀ (ref : List ℚ) (k j : ℕ) (l : List β), j < k → l.length = ref.length + k →
      pickFrom d l [j] ref k = l.drop k := by
  intro ref
  induction ref with
  | nil =>
    intro k j l hj hl
    simp only [pickFrom]
    rw [List.drop_of_length_le (by simpa using hl.le)]
  | cons r rt ih =>
    intro k j l hj hl
    have hk : k < l.length := by simp at hl; omega
    simp only [pickFrom, List.contains_cons, List.contains_nil, Bool.or_false]
    rw [if_neg (by simp; omega)]
    rw [ih (k + 1) j l (by omega) (by simp at hl ⊢; omega)]
    rw [List.getD_eq_getElem l d hk]
    exact (List.drop_eq_getElem_cons hk).symm

theorem pickFrom_eraseIdx {β : Type} (d : β) :
    ∀ (ref : List ℚ) (k i : ℕ) (l : List β), i < ref.length →
      l.length = ref.length + k → pickFrom d l [k + i] ref k = (l.drop k).eraseIdx i := by
  intro ref
  induction ref with
  | nil =>
    intro k i l hi hl
    simp at hi
  | cons r rt ih =>
    intro k i l hi hl
    have hk : k < l.length := by simp at hl; omega
    cases i with
    | zero =>
      simp only [pickFrom, List.contains_cons, List.contains_nil, Bool.or_false]
      rw [if_pos (by simp)]
      simp only [Nat.add_zero]
      rw [pickFrom_drop d rt (k + 1) k l (by omega) (by simp at hl ⊢; omega)]
      rw [List.drop_eq_getElem_cons hk]
      rfl
    | succ i' =>
      simp only [pickFrom, List.contains_cons, List.contains_nil, Bool.or_false]
      rw [if_neg (by simp)]
      have harith : k + (i' + 1) = (k + 1) + i' := by omega
      rw [harith, ih (k + 1) i' l (by simpa using hi) (by simp at hl ⊢; omega)]
      rw [List.getD_eq_getElem l d hk, List.drop_eq_getElem_cons hk]
      rfl

theorem pickFrom_single {β : Type} (d : β) (ref : List ℚ) (i : ℕ) (l : List β)
    (hi : i < ref.length) (hl : l.length = ref.length) :
    pickFrom d l [i] ref 0 = l.eraseIdx i := by
  have := pickFrom_eraseIdx d ref 0 i l hi (by omega)
  simpa using this

theorem buildPNew_skip :
    ∀ (ref : List ℚ) (k j : ℕ) (v : ℚ) (p : List ℚ), j < k →
      p.length = ref.length → buildPNew [j] [v] ref k p = p := by
  intro ref
  induction ref with
  | nil =>
    intro k j v p hj hp
    simp only [buildPNew]
    exact (List.eq_nil_of_length_eq_zero (by simpa using hp)).symm
  | cons r rt ih =>
    intro k j v p hj hp
    rcases p with _ | ⟨ph, pt⟩
    · simp at hp
    · simp only [buildPNew, List.contains_cons, List.contains_nil, Bool.or_false]
      rw [if_neg (by simp; omega)]
      simp only [List.headD_cons, List.tail_cons]
      rw [ih (k + 1) j v pt (by omega) (by simpa using hp)]

theorem buildPNew_insertIdx :
    ∀ (ref : List ℚ) (k i : ℕ) (v : ℚ) (p : List ℚ),
      i < ref.length → p.length + 1 = ref.length →
      buildPNew [k + i] [v] ref k p = p.insertIdx i v := by
  intro ref
  induction ref with
  | nil =>
    intro k i v p hi hp
    simp at hi
  | cons r rt ih =>
    intro k i v p hi hp
    cases i with
    | zero =>
      simp only [buildPNew, List.contains_cons, List.contains_nil, Bool.or_false]
      rw [if_pos (by simp)]
      rw [buildPNew_skip rt (k + 1) (k + 0) v p (by omega) (by simpa using hp)]
      simp [List.insertIdx_zero]
    | succ i' =>
      rcases p with _ | ⟨ph, pt⟩
      · simp only [List.length_cons, List.length_nil] at hp hi
        omega
      · simp only [buildPNew, List.contains_cons, List.contains_nil, Bool.or_false]
        rw [if_neg (by simp)]
        simp only [List.headD_cons, List.tail_cons]
        have harith : k + (i' + 1) = (k + 1) + i' := by omega
        rw [harith, ih (k + 1) i' v pt (by simpa using hi) (by simpa using hp)]
        rfl

theorem restoreFixed_single (rows : List Row) (i : ℕ) (v : ℚ) :
    restoreFixed rows [i] [v] = rows.insertIdx i (some v, some 0) := by
  simp [restoreFixed]

/-- C6: fixed-parameter handling in `_axis_fit`.  For a single fixed
parameter `(i, v)` with `i` in range: the reduction loop removes index `i`
from the initial-guess vector and from both bound lists handed to the
optimizer (`eraseIdx i`); the reconstruction inside `reduced_func`
substitutes the fixed value back at index `i` of the optimizer's parameter
vector (`insertIdx i v`), so the objective is evaluated on the full vector;
and, for any optimizer whose outputs have the handed-over length, the
returned per-slot result has the full parameter count with the row at index
`i` exactly `[v, 0]` (zero uncertainty), re-inserted by the `np.insert`
loop. -/
theorem claim_C6 (β : Type) [inst : Inhabited β] (opt : Opt β)
    (hopt : ∀ f q b xs ys es o, opt f q b xs ys es = .ok o →
      o.x.length = q.length ∧ ∀ c, o.covDiag = some c → c.length = q.length)
    (y centers : List ℚ) (errs : List ℝ) (func : List ℚ → ℚ → ℚ)
    (p0 : List ℚ) (sl : List ℕ) (bounds : List β × List β) (i : ℕ) (v : ℚ)
    (hi : i < p0.length) (hb1 : bounds.1.length = p0.length)
    (hb2 : bounds.2.length = p0.length) :
    pickFrom 0 p0 [i] p0 0 = p0.eraseIdx i ∧
    pickFrom (default : β) bounds.1 [i] p0 0 = bounds.1.eraseIdx i ∧
    pickFrom (default : β) bounds.2 [i] p0 0 = bounds.2.eraseIdx i ∧
    (∀ (p : List ℚ), p.length + 1 = p0.length →
      buildPNew [i] [v] p0 0 p = p.insertIdx i v) ∧
    (axisFit opt y centers errs func p0 sl bounds (some ([i], [v]))).1.length = p0.length ∧
    (axisFit opt y centers errs func p0 sl bounds (some ([i], [v]))).1.getD i nanRow =
      (some v, some 0) := by
  have hred : pickFrom 0 p0 [i] p0 0 = p0.eraseIdx i := pickFrom_single 0 p0 i p0 hi rfl
  have hredlen : (pickFrom 0 p0 [i] p0 0).length = p0.length - 1 := by
    rw [hred, List.length_eraseIdx]
    simp [hi]
  have hrows : ∀ rows : List Row, rows.length = p0.length - 1 →
      (restoreFixed rows [i] [v]).length = p0.length ∧
      (restoreFixed rows [i] [v]).getD i nanRow = (some v, some 0) := by
    intro rows hlen
    rw [restoreFixed_single]
    have hile : i ≤ rows.length := by omega
    constructor
    · rw [List.length_insertIdx i _ hile]
      omega
    · have hlt : i < (rows.insertIdx i ((some v : Option ℚ), (some 0 : Option ℚ))).length := by
        rw [List.length_insertIdx i _ hile]
        omega
      rw [List.getD_eq_getElem _ _ hlt]
      exact List.getElem_insertIdx_self rows _ i hile
  have hmain : (axisFit opt y centers errs func p0 sl bounds (some ([i], [v]))).1.length
        = p0.length ∧
      (axisFit opt y centers errs func p0 sl bounds (some ([i], [v]))).1.getD i nanRow =
        (some v, some 0) := by
    simp only [axisFit]
    apply hrows
    split
    · simpa using hredlen
    · split
      · simpa using hredlen
      · rename_i o hOC
        obtain ⟨hxlen, hcov⟩ := hopt _ _ _ _ _ _ o hOC
        split
        · rename_i c hc
          simpa [hxlen, hcov c hc] using hredlen
        · simpa [hxlen] using hredlen
  exact ⟨hred, pickFrom_single default p0 i bounds.1 hi hb1,
    pickFrom_single default p0 i bounds.2 hi hb2,
    fun p hp => by simpa using buildPNew_insertIdx p0 0 i v p hi hp,
    hmain.1, hmain.2⟩

/-- C6 witness: the fixed-parameter plumbing at `p0 = [10, 20, 30]`,
fixed parameter `(1, 99)`, with the echo optimizer. -/
theorem claim_C6_witness :
    (1 : ℕ) < ([10, 20, 30] : List ℚ).length ∧
    pickFrom 0 [10, 20, 30] [1] [10, 20, 30] 0 = ([10, 20, 30] : List ℚ).eraseIdx 1 ∧
    (axisFit optEcho [1, 2, 3] [0, 1, 2] [] (fun p x => p.getD 0 0 + x)
        [10, 20, 30] [0, 2, 1] (([0, 0, 0] : List ℚ), ([9, 9, 9] : List ℚ))
        (some ([1], [99]))).1.length = ([10, 20, 30] : List ℚ).length ∧
    (axisFit optEcho [1, 2, 3] [0, 1, 2] [] (fun p x => p.getD 0 0 + x)
        [10, 20, 30] [0, 2, 1] (([0, 0, 0] : List ℚ), ([9, 9, 9] : List ℚ))
        (some ([1], [99]))).1.getD 1 nanRow = (some 99, some 0) := by
  have hopt : ∀ (f : List ℚ → ℚ → ℚ) (q : List ℚ) (b : List ℚ × List ℚ)
      (xs ys : List ℚ) (es : List ℝ) (o : OptOut), optEcho f q b xs ys es = .ok o →
      o.x.length = q.length ∧ ∀ c, o.covDiag = some c → c.length = q.length := by
    intro f q b xs ys es o h
    simp only [optEcho, Except.ok.injEq] at h
    subst h
    refine ⟨rfl, fun c hc => ?_⟩
    simp only [Option.some.injEq] at hc
    subst hc
    simp
  have hC6 := claim_C6 ℚ optEcho hopt [1, 2, 3] [0, 1, 2] [] (fun p x => p.getD 0 0 + x)
    [10, 20, 30] [0, 2, 1] ([0, 0, 0], [9, 9, 9]) 1 99 (by decide) rfl rfl
  exact ⟨by decide, hC6.1, hC6.2.2.2.2.1, hC6.2.2.2.2.2⟩
